import Mathlib

/-!
Verification development for the recurring auto-order execution engine of
the apnahub22 repository.

The definitions below are shallow embeddings of the TypeScript sources
src/lib/auto-order-engine.ts, src/app/api/auto-orders/execute/route.ts and
src/lib/orderIdUtils.ts.  The JavaScript Date UTC decomposition used by
getIST is modelled by proleptic Gregorian calendar arithmetic following the
ECMAScript specification (Day, HourFromTime, MinFromTime, WeekDay,
YearFromTime, MonthFromTime, DateFromTime).  Timestamps are milliseconds
since the Unix epoch, as integers.
-/

namespace ApnaHub

/-! ### Calendar model (ECMAScript Date decomposition) -/

/-- Proleptic Gregorian leap-year test, as in ECMAScript DaysInYear. -/
def isLeap (y : Int) : Bool :=
  decide (y % 4 = 0 ∧ (y % 100 ≠ 0 ∨ y % 400 = 0))

/-- Number of days of calendar month `m` (1 = January .. 12 = December) of
calendar year `y`. -/
def daysInMonth (y : Int) (m : Nat) : Nat :=
  if m = 1 ∨ m = 3 ∨ m = 5 ∨ m = 7 ∨ m = 8 ∨ m = 10 ∨ m = 12 then 31
  else if m = 2 then (if isLeap y then 29 else 28)
  else 30

/-- Length (in days) of year number `yoe` of a 400-year Gregorian era.
Era years run from March 1 to the end of the following February, so year
`yoe` is long iff the calendar year congruent to `yoe + 1` modulo 400 is a
leap year. -/
def eraYearLen (yoe : Nat) : Nat :=
  if (yoe + 1) % 4 = 0 ∧ ((yoe + 1) % 100 ≠ 0 ∨ (yoe + 1) % 400 = 0) then 366 else 365

/-- Total number of days of the first `n` years of an era. -/
def sumEraYears : Nat → Nat
  | 0 => 0
  | n + 1 => sumEraYears n + eraYearLen n

/-- March-first-based month lengths; `mp = 0` is March, `mp = 11` is the
February ending the era year, long iff `leapFeb`. -/
def monthLen (leapFeb : Bool) (mp : Nat) : Nat :=
  match mp with
  | 0 => 31 | 1 => 30 | 2 => 31 | 3 => 30 | 4 => 31 | 5 => 31
  | 6 => 30 | 7 => 31 | 8 => 30 | 9 => 31 | 10 => 31
  | _ => if leapFeb then 29 else 28

/-- Total number of days of the first `n` era months. -/
def sumMonths (leapFeb : Bool) : Nat → Nat
  | 0 => 0
  | n + 1 => sumMonths leapFeb n + monthLen leapFeb n

/-- Locate the era year containing a day-of-era by walking year lengths:
`splitYear n yoe rest` consumes at most `n` further years. -/
def splitYear : Nat → Nat → Nat → Nat × Nat
  | 0, yoe, rest => (yoe, rest)
  | n + 1, yoe, rest =>
      if rest < eraYearLen yoe then (yoe, rest)
      else splitYear n (yoe + 1) (rest - eraYearLen yoe)

/-- Locate the era month containing a day-of-year by walking month lengths. -/
def splitMonth (leapFeb : Bool) : Nat → Nat → Nat → Nat × Nat
  | 0, mp, rest => (mp, rest)
  | n + 1, mp, rest =>
      if rest < monthLen leapFeb mp then (mp, rest)
      else splitMonth leapFeb n (mp + 1) (rest - monthLen leapFeb mp)

/-- Era index of a day number (day 0 is 1970-01-01). -/
def eraOf (z : Int) : Int := (z + 719468) / 146097

/-- Day-of-era of a day number, in `[0, 146097)`. -/
def doeOf (z : Int) : Nat := ((z + 719468) % 146097).toNat

/-- Civil (proleptic Gregorian) date `(year, month, day)` of day number `z`,
day 0 being 1970-01-01.  This models the getUTCFullYear, getUTCMonth and
getUTCDate decomposition of a JavaScript Date. -/
def civilFromDays (z : Int) : Int × Nat × Nat :=
  match splitYear 400 0 (doeOf z) with
  | (yoe, doy) =>
    match splitMonth (eraYearLen yoe == 366) 12 0 doy with
    | (mp, dom) =>
      let m := if mp < 10 then mp + 3 else mp - 9
      (eraOf z * 400 + yoe + (if m ≤ 2 then 1 else 0), m, dom + 1)

/-- Day number of a civil date, in the standard closed form.  This is the
reference inverse used to characterise `civilFromDays`. -/
def daysFromCivil (y : Int) (m d : Nat) : Int :=
  let ys := if m ≤ 2 then y - 1 else y
  let era := ys / 400
  let yoe := (ys % 400).toNat
  let mp := if 2 < m then m - 3 else m + 9
  let doy := (153 * mp + 2) / 5 + d - 1
  let doe := 365 * yoe + yoe / 4 - yoe / 100 + doy
  era * 146097 + (doe : Int) - 719468

/-- Left-pad a string with zeros to width `k`; models padStart(k, "0"). -/
def padZero (k : Nat) (s : String) : String :=
  if s.length < k then String.mk (List.replicate (k - s.length) '0') ++ s else s

/-- Models n.toString().padStart(2, "0") on a nonnegative integer. -/
def pad2 (n : Nat) : String := padZero 2 (toString n)

/-- DAY_MAP of auto-order-engine.ts: weekday index to weekday name. -/
def dayName : Nat → String
  | 0 => "Sun" | 1 => "Mon" | 2 => "Tue" | 3 => "Wed"
  | 4 => "Thu" | 5 => "Fri" | _ => "Sat"

/-- WEEKDAYS constant of auto-order-engine.ts. -/
def WEEKDAYS : List String := ["Mon", "Tue", "Wed", "Thu", "Fri"]

/-- IST offset in milliseconds: 5.5 * 60 * 60 * 1000. -/
def IST_OFFSET_MS : Int := 19800000

/-- Result of getIST: local time "HH:MM", weekday name, date "YYYY-MM-DD". -/
structure ISTParts where
  time : String
  day : String
  dateStr : String
deriving Repr, DecidableEq

/-- Embedding of getIST of auto-order-engine.ts: shift the instant by the
fixed IST offset, then take the UTC decomposition of the shifted instant. -/
def getIST (t : Int) : ISTParts :=
  let ist := t + IST_OFFSET_MS
  let dayIdx := ist / 86400000
  let msOfDay := (ist % 86400000).toNat
  let hh := pad2 (msOfDay / 3600000)
  let mm := pad2 (msOfDay / 60000 % 60)
  let day := dayName ((dayIdx + 4) % 7).toNat
  let c := civilFromDays dayIdx
  { time := hh ++ ":" ++ mm
    day := day
    dateStr := toString c.1 ++ "-" ++ pad2 c.2.1 ++ "-" ++ pad2 c.2.2 }

/-- Models Date.prototype.toISOString, used for the timestamp fields the
engine persists.  Only well-formedness matters to the claims. -/
def jsToISOString (t : Int) : String :=
  let dayIdx := t / 86400000
  let ms := (t % 86400000).toNat
  let c := civilFromDays dayIdx
  let ystr := if c.1 < 0 then toString c.1 else padZero 4 (toString c.1.toNat)
  ystr ++ "-" ++ pad2 c.2.1 ++ "-" ++ pad2 c.2.2 ++ "T" ++
    pad2 (ms / 3600000) ++ ":" ++ pad2 (ms / 60000 % 60) ++ ":" ++
    pad2 (ms / 1000 % 60) ++ "." ++ padZero 3 (toString (ms % 1000)) ++ "Z"

/-! ### Calendar lemmas -/

set_option maxRecDepth 4000 in
lemma sumEraYears_400 : sumEraYears 400 = 146097 := by decide

lemma sumEraYears_closed (n : Nat) (h : n ≤ 399) :
    sumEraYears n = 365 * n + n / 4 - n / 100 := by
  induction n with
  | zero => rfl
  | succ k ih =>
      have ihk := ih (by omega)
      simp only [sumEraYears, eraYearLen, ihk]
      split <;> omega

lemma splitYear_spec (n yoe rest : Nat)
    (h : rest + sumEraYears yoe < sumEraYears (yoe + n)) :
    (splitYear n yoe rest).2 < eraYearLen (splitYear n yoe rest).1 ∧
    (splitYear n yoe rest).2 + sumEraYears (splitYear n yoe rest).1
      = rest + sumEraYears yoe ∧
    (splitYear n yoe rest).1 < yoe + n := by
  induction n generalizing yoe rest with
  | zero =>
      exfalso; simp only [Nat.add_zero] at h; omega
  | succ k ih =>
      by_cases hc : rest < eraYearLen yoe
      · unfold splitYear
        rw [if_pos hc]
        exact ⟨hc, rfl, by omega⟩
      · unfold splitYear
        rw [if_neg hc]
        have hsum : sumEraYears (yoe + 1) = sumEraYears yoe + eraYearLen yoe := rfl
        have h2 : (rest - eraYearLen yoe) + sumEraYears (yoe + 1)
            < sumEraYears ((yoe + 1) + k) := by
          rw [hsum]
          have : yoe + (k + 1) = (yoe + 1) + k := by omega
          rw [this] at h
          omega
        have := ih (yoe + 1) (rest - eraYearLen yoe) h2
        refine ⟨this.1, ?_, by omega⟩
        rw [this.2.1, hsum]
        omega

lemma sumMonths_12 (b : Bool) : sumMonths b 12 = if b then 366 else 365 := by
  cases b <;> decide

lemma sumMonths_closed (b : Bool) :
    ∀ mp, mp < 12 → sumMonths b mp = (153 * mp + 2) / 5 := by
  cases b <;> decide

lemma splitMonth_spec (b : Bool) (n mp rest : Nat)
    (h : rest + sumMonths b mp < sumMonths b (mp + n)) :
    (splitMonth b n mp rest).2 < monthLen b (splitMonth b n mp rest).1 ∧
    (splitMonth b n mp rest).2 + sumMonths b (splitMonth b n mp rest).1
      = rest + sumMonths b mp ∧
    (splitMonth b n mp rest).1 < mp + n := by
  induction n generalizing mp rest with
  | zero =>
      exfalso; simp only [Nat.add_zero] at h; omega
  | succ k ih =>
      by_cases hc : rest < monthLen b mp
      · unfold splitMonth
        rw [if_pos hc]
        exact ⟨hc, rfl, by omega⟩
      · unfold splitMonth
        rw [if_neg hc]
        have hsum : sumMonths b (mp + 1) = sumMonths b mp + monthLen b mp := rfl
        have h2 : (rest - monthLen b mp) + sumMonths b (mp + 1)
            < sumMonths b ((mp + 1) + k) := by
          rw [hsum]
          have : mp + (k + 1) = (mp + 1) + k := by omega
          rw [this] at h
          omega
        have := ih (mp + 1) (rest - monthLen b mp) h2
        refine ⟨this.1, ?_, by omega⟩
        rw [this.2.1, hsum]
        omega

lemma eraYearLen_cases (yoe : Nat) : eraYearLen yoe = 365 ∨ eraYearLen yoe = 366 := by
  unfold eraYearLen; split <;> omega

lemma doeOf_lt (z : Int) : doeOf z < 146097 := by
  unfold doeOf
  omega

lemma era_doe (z : Int) : eraOf z * 146097 + (doeOf z : Int) = z + 719468 := by
  unfold eraOf doeOf
  omega

lemma eraYearLen_eq_366_iff (yoe : Nat) :
    eraYearLen yoe = 366 ↔
      ((yoe + 1) % 4 = 0 ∧ ((yoe + 1) % 100 ≠ 0 ∨ (yoe + 1) % 400 = 0)) := by
  unfold eraYearLen
  split <;> simp_all

lemma isLeap_era (era : Int) (yoe : Nat) :
    isLeap (era * 400 + (yoe : Int) + 1) = (eraYearLen yoe == 366) := by
  have hiff : (isLeap (era * 400 + (yoe : Int) + 1) = true) ↔
      ((eraYearLen yoe == 366) = true) := by
    unfold isLeap
    rw [decide_eq_true_iff, beq_iff_eq, eraYearLen_eq_366_iff]
    constructor <;> intro hh <;> omega
  cases hA : isLeap (era * 400 + (yoe : Int) + 1) <;>
    cases hB : (eraYearLen yoe == 366) <;> simp_all

lemma monthLen_sum_year (yoe : Nat) :
    sumMonths (eraYearLen yoe == 366) 12 = eraYearLen yoe := by
  rcases eraYearLen_cases yoe with h | h <;> rw [h] <;> decide

theorem civilFromDays_correct (z : Int) :
    1 ≤ (civilFromDays z).2.1 ∧ (civilFromDays z).2.1 ≤ 12 ∧
    1 ≤ (civilFromDays z).2.2 ∧
    (civilFromDays z).2.2 ≤ daysInMonth (civilFromDays z).1 (civilFromDays z).2.1 ∧
    daysFromCivil (civilFromDays z).1 (civilFromDays z).2.1 (civilFromDays z).2.2 = z := by
  have hdoe := doeOf_lt z
  have hY := splitYear_spec 400 0 (doeOf z) (by
    simpa [sumEraYears_400] using hdoe)
  rcases hp : splitYear 400 0 (doeOf z) with ⟨yoe, doy⟩
  rw [hp] at hY
  obtain ⟨hdoy_lt, hdoy_sum, hyoe_lt⟩ := hY
  simp only at hdoy_lt hdoy_sum hyoe_lt
  have hM := splitMonth_spec (eraYearLen yoe == 366) 12 0 doy (by
    simpa [monthLen_sum_year] using hdoy_lt)
  rcases hq : splitMonth (eraYearLen yoe == 366) 12 0 doy with ⟨mp, dom⟩
  rw [hq] at hM
  obtain ⟨hdom_lt, hdom_sum, hmp_lt⟩ := hM
  simp only at hdom_lt hdom_sum hmp_lt
  simp only [civilFromDays, hp, hq]
  have hz := era_doe z
  have hsumy : sumEraYears yoe = 365 * yoe + yoe / 4 - yoe / 100 :=
    sumEraYears_closed yoe (by omega)
  simp only [sumEraYears, Nat.add_zero] at hdoy_sum
  simp only [sumMonths, Nat.add_zero] at hdom_sum
  have hsm : sumMonths (eraYearLen yoe == 366) mp = (153 * mp + 2) / 5 :=
    sumMonths_closed _ mp (by omega)
  rw [hsm] at hdom_sum
  by_cases hmp10 : mp < 10
  · have hm2 : ¬ (mp + 3 ≤ 2) := by omega
    simp only [if_pos hmp10, if_neg hm2]
    refine ⟨by omega, by omega, by omega, ?_, ?_⟩
    · have hml : monthLen (eraYearLen yoe == 366) mp
          = daysInMonth (eraOf z * 400 + ↑yoe + 0) (mp + 3) := by
        interval_cases mp <;> simp [monthLen, daysInMonth]
      omega
    · unfold daysFromCivil
      have hm2b : ¬ (mp + 3 ≤ 2) := by omega
      have hm3 : 2 < mp + 3 := by omega
      simp only [if_neg hm2b, if_pos hm3]
      have hdiv : (eraOf z * 400 + (yoe : Int) + 0) / 400 = eraOf z := by omega
      have hmod : ((eraOf z * 400 + (yoe : Int) + 0) % 400).toNat = yoe := by omega
      rw [hdiv, hmod]
      have hc : mp + 3 - 3 = mp := by omega
      rw [hc]
      omega
  · have hm2 : mp - 9 ≤ 2 := by omega
    have hm3 : ¬ (2 < mp - 9) := by omega
    simp only [if_neg hmp10, if_pos hm2]
    refine ⟨by omega, by omega, by omega, ?_, ?_⟩
    · have hml : monthLen (eraYearLen yoe == 366) mp
          = daysInMonth (eraOf z * 400 + ↑yoe + 1) (mp - 9) := by
        interval_cases mp
        · simp [monthLen, daysInMonth]
        · simp only [monthLen, daysInMonth]
          rw [← isLeap_era (eraOf z) yoe]
          norm_num
      omega
    · unfold daysFromCivil
      simp only [if_pos hm2, if_neg hm3]
      have hys : eraOf z * 400 + (yoe : Int) + 1 - 1 = eraOf z * 400 + (yoe : Int) := by ring
      rw [hys]
      have hdiv : (eraOf z * 400 + (yoe : Int)) / 400 = eraOf z := by omega
      have hmod : ((eraOf z * 400 + (yoe : Int)) % 400).toNat = yoe := by omega
      rw [hdiv, hmod]
      have hc : mp - 9 + 9 = mp := by omega
      rw [hc]
      omega

lemma pad2_length : ∀ n, n < 100 → (pad2 n).length = 2 := by decide

lemma daysInMonth_le (y : Int) (m : Nat) : daysInMonth y m ≤ 31 := by
  unfold daysInMonth
  split
  · omega
  · split
    · split <;> omega
    · omega

/-- C9: the Time Resolver returns zero-padded "HH:MM", the weekday, and the
calendar date "YYYY-MM-DD", all computed from the instant shifted by exactly
the fixed +5:30 offset; the printed date is a valid civil date whose day
number equals the shifted day index (correct rollover), and the function is
total over all instants. -/
theorem getIST_resolves_shifted_instant (t : Int) :
    ∃ (y : Int) (m d h mi r : Nat),
      getIST t = { time := pad2 h ++ ":" ++ pad2 mi
                   day := dayName (((t + IST_OFFSET_MS) / 86400000 + 4) % 7).toNat
                   dateStr := toString y ++ "-" ++ pad2 m ++ "-" ++ pad2 d } ∧
      (t + IST_OFFSET_MS) % 86400000 = ((h * 3600000 + mi * 60000 + r : Nat) : Int) ∧
      r < 60000 ∧ h < 24 ∧ mi < 60 ∧
      (pad2 h).length = 2 ∧ (pad2 mi).length = 2 ∧
      (pad2 m).length = 2 ∧ (pad2 d).length = 2 ∧
      1 ≤ m ∧ m ≤ 12 ∧ 1 ≤ d ∧ d ≤ daysInMonth y m ∧
      daysFromCivil y m d = (t + IST_OFFSET_MS) / 86400000 := by
  have hciv := civilFromDays_correct ((t + IST_OFFSET_MS) / 86400000)
  refine ⟨(civilFromDays ((t + IST_OFFSET_MS) / 86400000)).1,
    (civilFromDays ((t + IST_OFFSET_MS) / 86400000)).2.1,
    (civilFromDays ((t + IST_OFFSET_MS) / 86400000)).2.2,
    ((t + IST_OFFSET_MS) % 86400000).toNat / 3600000,
    ((t + IST_OFFSET_MS) % 86400000).toNat / 60000 % 60,
    ((t + IST_OFFSET_MS) % 86400000).toNat % 60000,
    rfl, by omega, by omega, by omega, by omega,
    pad2_length _ (by omega), pad2_length _ (by omega),
    pad2_length _ (by omega), pad2_length _ ?_,
    hciv.1, hciv.2.1, hciv.2.2.1, hciv.2.2.2.1, hciv.2.2.2.2⟩
  have := hciv.2.2.2.1
  have := daysInMonth_le (civilFromDays ((t + IST_OFFSET_MS) / 86400000)).1
    (civilFromDays ((t + IST_OFFSET_MS) / 86400000)).2.1
  omega

/-! ### Data model of the Firestore documents touched by the engine -/

/-- One autoOrders document, with the fields the engine reads.  Optional
fields model the schema-less store: absent fields are `none`. -/
structure AutoOrder where
  userId : String
  itemId : String
  itemName : String
  itemPrice : Int
  quantity : Int
  frequency : String
  customDays : Option (List String)
  time : String
  status : String
  lastExecutedDate : Option String
  lastExecutedAt : Option String
  lastFailedAt : Option String
  lastFailureReason : Option String
  updatedAt : Option String
  totalExecutions : Int
  totalFailures : Int
deriving Repr, DecidableEq

/-- One users document, with the fields the engine reads. -/
structure UserDoc where
  name : Option String
  email : Option String
  rollNumber : Option String
  walletBalance : Option Int
deriving Repr, DecidableEq

/-- A line item of a created order. -/
structure OrderItem where
  id : String
  name : String
  price : Int
  quantity : Int
deriving Repr, DecidableEq

/-- One orders document as created by the success branch. -/
structure OrderDoc where
  orderId : String
  userId : String
  userName : String
  userEmail : String
  userRollNumber : String
  items : List OrderItem
  total : Int
  paymentMode : String
  status : String
  isAutoOrder : Bool
  autoOrderId : String
  createdAt : String
  updatedAt : String
deriving Repr, DecidableEq

/-- One walletTransactions document; `txnType` embeds the stored field
named type. -/
structure WalletTxn where
  userId : String
  txnType : String
  amount : Int
  description : String
  transactionId : String
  createdAt : String
deriving Repr, DecidableEq

/-- One notifications document; `notifType` embeds the stored field named
type. -/
structure NotificationDoc where
  userId : String
  notifType : String
  title : String
  message : String
  orderId : String
  read : Bool
  createdAt : String
deriving Repr, DecidableEq

/-- One autoOrderExecutions document (the ExecutionAttempt audit record). -/
structure ExecutionRecord where
  autoOrderId : String
  userId : String
  success : Bool
  orderId : Option String
  failureReason : Option String
  amountDeducted : Option Int
  executedAt : String
deriving Repr, DecidableEq

/-- The Firestore state visible to the engine.  The id supplies model the
Math.random driven id generation of orderIdUtils.ts and of document
references as ambient streams of pre-drawn strings.  `txFaults` models
unexpected storage faults of the external SDK thrown while running the
transaction of a given auto order; `initFault` and `queryFault` model the
storage backend being unreachable at SDK initialisation and at the
candidate query respectively. -/
structure Store where
  autoOrders : List (String × AutoOrder)
  users : List (String × UserDoc)
  orders : List OrderDoc
  walletTransactions : List WalletTxn
  notifications : List NotificationDoc
  autoOrderExecutions : List ExecutionRecord
  orderIdSupply : List String
  docIdSupply : List String
  txFaults : List (String × String)
  initFault : Option String
  queryFault : Option String
deriving Repr, DecidableEq

/-- Models the JavaScript expression v || dflt on an optional string. -/
def jsOr (v : Option String) (dflt : String) : String :=
  match v with
  | some s => if s = "" then dflt else s
  | none => dflt

/-! ### The engine: shallow embedding of executeAutoOrders -/

/-- Document lookup by id in a keyed collection. -/
def findDoc {α : Type} : List (String × α) → String → Option α
  | [], _ => none
  | (k, v) :: t, k2 => if k = k2 then some v else findDoc t k2

/-- Day-of-week check of auto-order-engine.ts lines 160 to 177: the
if-else-if chain on frequency; an unrecognised frequency, or a custom
frequency without an array of days, leaves shouldRun false. -/
def shouldRunFor (ao : AutoOrder) (day : String) : Bool :=
  if ao.frequency == "daily" then true
  else if ao.frequency == "weekdays" then WEEKDAYS.contains day
  else if ao.frequency == "custom" then
    match ao.customDays with
    | some l => l.contains day
    | none => false
  else false

/-- A write queued inside a Firestore transaction by the engine. -/
inductive TxWrite where
  | setExecution (e : ExecutionRecord)
  | updateAutoOrderFail (id : String) (dateStr nowIso reason : String)
  | updateAutoOrderOk (id : String) (dateStr nowIso : String)
  | incrementWallet (userId : String) (delta : Int)
  | setOrder (o : OrderDoc)
  | setWalletTxn (w : WalletTxn)
  | setNotification (n : NotificationDoc)
deriving Repr, DecidableEq

/-- Apply one committed write to the store.  FieldValue.increment is an
atomic add treating a missing field as 0. -/
def applyWrite (s : Store) : TxWrite → Store
  | .setExecution e =>
      { s with autoOrderExecutions := s.autoOrderExecutions ++ [e] }
  | .updateAutoOrderFail id ds iso reason =>
      { s with autoOrders := s.autoOrders.map (fun p =>
          if p.1 = id then
            (p.1, { p.2 with
                    lastExecutedDate := some ds, lastExecutedAt := some iso,
                    lastFailedAt := some iso, lastFailureReason := some reason,
                    totalFailures := p.2.totalFailures + 1, updatedAt := some iso })
          else p) }
  | .updateAutoOrderOk id ds iso =>
      { s with autoOrders := s.autoOrders.map (fun p =>
          if p.1 = id then
            (p.1, { p.2 with
                    lastExecutedDate := some ds, lastExecutedAt := some iso,
                    totalExecutions := p.2.totalExecutions + 1, updatedAt := some iso })
          else p) }
  | .incrementWallet uid delta =>
      { s with users := s.users.map (fun p =>
          if p.1 = uid then
            (p.1, { p.2 with walletBalance := some (p.2.walletBalance.getD 0 + delta) })
          else p) }
  | .setOrder o => { s with orders := s.orders ++ [o] }
  | .setWalletTxn w => { s with walletTransactions := s.walletTransactions ++ [w] }
  | .setNotification n => { s with notifications := s.notifications ++ [n] }

/-- Apply committed writes in queue order. -/
def applyWrites (s : Store) (ws : List TxWrite) : Store := ws.foldl applyWrite s

/-- The writes queued by the insufficient-balance branch (engine lines 207
to 228) before the INSUFFICIENT_BALANCE throw. -/
def insufficientTxWrites (id : String) (ao : AutoOrder) (nowIso dateStr : String)
    (walletBalance total : Int) : List TxWrite :=
  [ .setExecution
      { autoOrderId := id, userId := ao.userId, success := false,
        orderId := none, amountDeducted := none,
        failureReason := some s!"Insufficient balance: ₹{walletBalance} < ₹{total}",
        executedAt := nowIso },
    .updateAutoOrderFail id dateStr nowIso
      s!"Insufficient balance (₹{walletBalance} available, ₹{total} needed)" ]

/-- The writes queued by the success branch (engine lines 232 to 312). -/
def successTxWrites (s : Store) (id : String) (ao : AutoOrder) (u : UserDoc)
    (nowIso dateStr : String) (total : Int) : List TxWrite :=
  let orderId := s.orderIdSupply.headD "SAITM0000"
  let txnId := s.docIdSupply.headD "doc0"
  let itemName := ao.itemName
  let quantity := ao.quantity
  [ .incrementWallet ao.userId (-total),
    .setOrder
      { orderId := orderId, userId := ao.userId,
        userName := jsOr u.name "Auto Order",
        userEmail := jsOr u.email "",
        userRollNumber := jsOr u.rollNumber "",
        items := [{ id := ao.itemId, name := ao.itemName,
                    price := ao.itemPrice, quantity := ao.quantity }],
        total := total, paymentMode := "Wallet", status := "pending",
        isAutoOrder := true, autoOrderId := id,
        createdAt := nowIso, updatedAt := nowIso },
    .setWalletTxn
      { userId := ao.userId, txnType := "debit", amount := total,
        description := s!"Auto Order #{orderId} — {itemName} x{quantity}",
        transactionId := txnId, createdAt := nowIso },
    .setNotification
      { userId := ao.userId, notifType := "auto_order",
        title := "Auto Order Placed ✅",
        message := s!"{itemName} x{quantity} (₹{total}) placed automatically.",
        orderId := orderId, read := false, createdAt := nowIso },
    .setExecution
      { autoOrderId := id, userId := ao.userId, success := true,
        orderId := some orderId, failureReason := none,
        amountDeducted := some total, executedAt := nowIso },
    .updateAutoOrderOk id dateStr nowIso ]

/-- The body of the per-item Firestore transaction (engine lines 193 to
313): the writes it queues, and the error it throws, if any. -/
def txAttempt (s : Store) (id : String) (ao : AutoOrder) (nowIso dateStr : String) :
    List TxWrite × Option String :=
  match findDoc s.users ao.userId with
  | none => ([], some "USER_NOT_FOUND")
  | some u =>
    let walletBalance := u.walletBalance.getD 0
    let total := ao.itemPrice * ao.quantity
    if walletBalance < total then
      (insufficientTxWrites id ao nowIso dateStr walletBalance total,
        some "INSUFFICIENT_BALANCE")
    else
      (successTxWrites s id ao u nowIso dateStr total, none)

/-- Firestore runTransaction semantics: if the callback throws, the queued
writes are rolled back and the error propagates; otherwise the writes
commit atomically.  A registered fault for the item models the SDK itself
throwing unexpectedly.  On commit the consumed id draws are popped. -/
def runItemTx (s : Store) (id : String) (ao : AutoOrder) (nowIso dateStr : String) :
    Except String Store :=
  match findDoc s.txFaults id with
  | some m => .error m
  | none =>
    match txAttempt s id ao nowIso dateStr with
    | (_, some e) => .error e
    | (ws, none) =>
        .ok { applyWrites s ws with
              orderIdSupply := s.orderIdSupply.tail, docIdSupply := s.docIdSupply.tail }

/-- Classification of one candidate by the per-item part of the loop. -/
inductive ItemOutcome where
  | notScheduled
  | alreadyRanToday
  | txSuccess
  | txThrown (msg : String)
deriving Repr, DecidableEq

/-- Per-item processing (engine lines 159 to 331): recurrence check,
duplicate guard, then the transaction; all reads of the auto order use the
query snapshot data, while the transaction reads the live store. -/
def stepAutoOrder (ist : ISTParts) (nowIso : String) (s : Store)
    (id : String) (ao : AutoOrder) : ItemOutcome × Store :=
  if ¬ shouldRunFor ao ist.day then (.notScheduled, s)
  else if ao.lastExecutedDate == some ist.dateStr then (.alreadyRanToday, s)
  else
    match runItemTx s id ao nowIso ist.dateStr with
    | .error m => (.txThrown m, s)
    | .ok s2 => (.txSuccess, s2)

/-- The error string pushed by the per-item catch block (engine lines 318
to 331). -/
def errorStringFor (id msg : String) : String :=
  if msg == "INSUFFICIENT_BALANCE" then s!"{id}: insufficient balance"
  else if msg == "USER_NOT_FOUND" then s!"{id}: user not found"
  else s!"{id}: {msg}"

/-- The mutable counters of the batch loop. -/
structure LoopAcc where
  processed : Nat
  succeeded : Nat
  failed : Nat
  skipped : Nat
  errors : List String
deriving Repr, DecidableEq

/-- The batch loop over the query snapshot (engine lines 151 to 332). -/
def engineLoop (ist : ISTParts) (nowIso : String) :
    List (String × AutoOrder) → Store → LoopAcc → LoopAcc × Store
  | [], s, acc => (acc, s)
  | (id, ao) :: rest, s, acc =>
    match stepAutoOrder ist nowIso s id ao with
    | (.notScheduled, s2) =>
        engineLoop ist nowIso rest s2 { acc with skipped := acc.skipped + 1 }
    | (.alreadyRanToday, s2) =>
        engineLoop ist nowIso rest s2 { acc with skipped := acc.skipped + 1 }
    | (.txSuccess, s2) =>
        engineLoop ist nowIso rest s2
          { acc with processed := acc.processed + 1, succeeded := acc.succeeded + 1 }
    | (.txThrown m, s2) =>
        engineLoop ist nowIso rest s2
          { acc with
            processed := acc.processed + 1, failed := acc.failed + 1,
            errors := acc.errors ++ [errorStringFor id m] }

/-- The AutoOrderResult record of auto-order-engine.ts. -/
structure AutoOrderResult where
  success : Bool
  time : String
  day : String
  date : String
  candidates : Nat
  skipped : Nat
  processed : Nat
  succeeded : Nat
  failed : Nat
  errors : List String
  message : Option String
deriving Repr, DecidableEq

/-- Embedding of executeAutoOrders of auto-order-engine.ts: SDK health
check, IST resolution with optional override, candidate query on
status == "active" and time == queryTime, loop, and summary. -/
def executeAutoOrders (s : Store) (now : Int) (overrideTime : Option String) :
    AutoOrderResult × Store :=
  match s.initFault with
  | some m =>
      ({ success := false, time := "??:??", day := "Mon", date := "unknown",
         candidates := 0, skipped := 0, processed := 0, succeeded := 0, failed := 0,
         errors := [s!"Firebase Admin SDK init failed: {m}"],
         message := some "Firebase Admin SDK is not working" }, s)
  | none =>
    let ist := getIST now
    let queryTime := overrideTime.getD ist.time
    match s.queryFault with
    | some m =>
        ({ success := false, time := queryTime, day := ist.day, date := ist.dateStr,
           candidates := 0, skipped := 0, processed := 0, succeeded := 0, failed := 0,
           errors := [m], message := some m }, s)
    | none =>
      let docs := s.autoOrders.filter
        (fun p => p.2.status == "active" && p.2.time == queryTime)
      if docs.isEmpty then
        ({ success := true, time := queryTime, day := ist.day, date := ist.dateStr,
           candidates := 0, skipped := 0, processed := 0, succeeded := 0, failed := 0,
           errors := [],
           message := some s!"No active auto orders for {queryTime} IST" }, s)
      else
        let r := engineLoop ist (jsToISOString now) docs s
          { processed := 0, succeeded := 0, failed := 0, skipped := 0, errors := [] }
        ({ success := true, time := queryTime, day := ist.day, date := ist.dateStr,
           candidates := docs.length, skipped := r.1.skipped,
           processed := r.1.processed, succeeded := r.1.succeeded,
           failed := r.1.failed, errors := r.1.errors, message := none }, r.2)

/-! ### The cron trigger endpoint: shallow embedding of route.ts GET -/

/-- A JSON value, as far as the endpoint responses need. -/
inductive JVal where
  | jstr (v : String)
  | jint (v : Int)
  | jbool (v : Bool)
deriving Repr, DecidableEq

/-- An HTTP response: status code and JSON object body as key-value list. -/
structure HttpResponse where
  status : Nat
  body : List (String × JVal)
deriving Repr, DecidableEq

/-- The process environment read by the route.  `nodeEnvProduction` records
whether the deployment is flagged as production; verifyCronAuth never reads
it. -/
structure CronEnv where
  cronSecret : Option String
  nodeEnvProduction : Bool
deriving Repr, DecidableEq

/-- The parts of the incoming request the route reads. -/
structure CronRequest where
  authorizationHeader : Option String
  secretParam : Option String
deriving Repr, DecidableEq

/-- Embedding of verifyCronAuth of route.ts lines 112 to 129: with no
configured secret the request is allowed unconditionally; with a secret,
either the bearer Authorization header or the secret query parameter must
match. -/
def verifyCronAuth (env : CronEnv) (req : CronRequest) : Bool :=
  match env.cronSecret with
  | none => true
  | some sec =>
    if req.authorizationHeader == some ("Bearer " ++ sec) then true
    else if req.secretParam == some sec then true
    else false

/-- Embedding of the GET handler of route.ts lines 136 to 355: auth gate,
IST resolution, candidate query, the same per-item loop as the library
engine, and the response.  The normal response carries the counters but no
errors array; the zero-candidate response carries only success, processed
and message; a fatal storage error yields status 500. -/
def cronGET (env : CronEnv) (req : CronRequest) (now : Int) (s : Store) :
    HttpResponse × Store :=
  if ¬ verifyCronAuth env req then
    ({ status := 401, body := [("error", .jstr "Unauthorized")] }, s)
  else
    let ist := getIST now
    match s.queryFault with
    | some m => ({ status := 500, body := [("error", .jstr m)] }, s)
    | none =>
      let docs := s.autoOrders.filter
        (fun p => p.2.status == "active" && p.2.time == ist.time)
      if docs.isEmpty then
        let time := ist.time
        ({ status := 200,
           body := [("success", .jbool true), ("processed", .jint 0),
                    ("message", .jstr s!"No active auto orders for {time} IST")] }, s)
      else
        let r := engineLoop ist (jsToISOString now) docs s
          { processed := 0, succeeded := 0, failed := 0, skipped := 0, errors := [] }
        ({ status := 200,
           body := [("success", .jbool true), ("time", .jstr ist.time),
                    ("day", .jstr ist.day), ("date", .jstr ist.dateStr),
                    ("candidates", .jint docs.length), ("skipped", .jint r.1.skipped),
                    ("processed", .jint r.1.processed),
                    ("succeeded", .jint r.1.succeeded),
                    ("failed", .jint r.1.failed)] }, r.2)

/-! ### Engine lemmas -/

lemma applyWrite_txFaults (s : Store) (w : TxWrite) :
    (applyWrite s w).txFaults = s.txFaults := by
  cases w <;> rfl

lemma applyWrites_txFaults (ws : List TxWrite) (s : Store) :
    (applyWrites s ws).txFaults = s.txFaults := by
  induction ws generalizing s with
  | nil => rfl
  | cons w t ih =>
      show (applyWrites (applyWrite s w) t).txFaults = s.txFaults
      rw [ih, applyWrite_txFaults]

lemma runItemTx_ok_txFaults (s : Store) (id : String) (ao : AutoOrder)
    (a b : String) (s2 : Store) (h : runItemTx s id ao a b = .ok s2) :
    s2.txFaults = s.txFaults := by
  unfold runItemTx at h
  cases hl : findDoc s.txFaults id with
  | some m => rw [hl] at h; exact absurd h (by simp)
  | none =>
      rw [hl] at h
      rcases ht : txAttempt s id ao a b with ⟨ws, thrown⟩
      rw [ht] at h
      cases thrown with
      | some e => exact absurd h (by simp)
      | none =>
          simp only [Except.ok.injEq] at h
          rw [← h]
          exact applyWrites_txFaults ws s

lemma stepAutoOrder_txFaults (ist : ISTParts) (iso : String) (s : Store)
    (id : String) (ao : AutoOrder) :
    ((stepAutoOrder ist iso s id ao).2).txFaults = s.txFaults := by
  unfold stepAutoOrder
  split
  · rfl
  · split
    · rfl
    · cases h : runItemTx s id ao iso ist.dateStr with
      | error m => rfl
      | ok s2 => exact runItemTx_ok_txFaults s id ao iso ist.dateStr s2 h

lemma engineLoop_txFaults (ist : ISTParts) (iso : String) :
    ∀ (l : List (String × AutoOrder)) (s : Store) (acc : LoopAcc),
      ((engineLoop ist iso l s acc).2).txFaults = s.txFaults := by
  intro l
  induction l with
  | nil => intro s acc; rfl
  | cons x t ih =>
      intro s acc
      obtain ⟨id, ao⟩ := x
      have hpres := stepAutoOrder_txFaults ist iso s id ao
      rcases h : stepAutoOrder ist iso s id ao with ⟨out, s2⟩
      rw [h] at hpres
      cases out <;> simp only [engineLoop, h] <;> rw [ih] <;> exact hpres

lemma engineLoop_append (ist : ISTParts) (iso : String) :
    ∀ (l1 l2 : List (String × AutoOrder)) (s : Store) (acc : LoopAcc),
      engineLoop ist iso (l1 ++ l2) s acc
        = engineLoop ist iso l2 (engineLoop ist iso l1 s acc).2
            (engineLoop ist iso l1 s acc).1 := by
  intro l1
  induction l1 with
  | nil => intro l2 s acc; rfl
  | cons x t ih =>
      intro l2 s acc
      obtain ⟨id, ao⟩ := x
      rcases h : stepAutoOrder ist iso s id ao with ⟨out, s2⟩
      cases out <;> simp only [List.cons_append, engineLoop, h] <;> exact ih l2 s2 _

lemma engineLoop_counts (ist : ISTParts) (iso : String) :
    ∀ (l : List (String × AutoOrder)) (s : Store) (acc : LoopAcc),
      (engineLoop ist iso l s acc).1.skipped + (engineLoop ist iso l s acc).1.processed
        = acc.skipped + acc.processed + l.length ∧
      (engineLoop ist iso l s acc).1.processed + acc.succeeded + acc.failed
        = (engineLoop ist iso l s acc).1.succeeded
            + (engineLoop ist iso l s acc).1.failed + acc.processed := by
  intro l
  induction l with
  | nil => intro s acc; exact ⟨by simp [engineLoop], by simp only [engineLoop]; omega⟩
  | cons x t ih =>
      intro s acc
      obtain ⟨id, ao⟩ := x
      rcases h : stepAutoOrder ist iso s id ao with ⟨out, s2⟩
      cases out with
      | notScheduled =>
          simp only [engineLoop, h, List.length_cons]
          have hh := ih s2 { acc with skipped := acc.skipped + 1 }
          dsimp only at hh ⊢
          omega
      | alreadyRanToday =>
          simp only [engineLoop, h, List.length_cons]
          have hh := ih s2 { acc with skipped := acc.skipped + 1 }
          dsimp only at hh ⊢
          omega
      | txSuccess =>
          simp only [engineLoop, h, List.length_cons]
          have hh := ih s2 { acc with processed := acc.processed + 1,
                                      succeeded := acc.succeeded + 1 }
          dsimp only at hh ⊢
          omega
      | txThrown m =>
          simp only [engineLoop, h, List.length_cons]
          have hh := ih s2 { acc with
                             processed := acc.processed + 1, failed := acc.failed + 1,
                             errors := acc.errors ++ [errorStringFor id m] }
          dsimp only at hh ⊢
          omega

lemma engineLoop_errors_mono (ist : ISTParts) (iso : String) :
    ∀ (l : List (String × AutoOrder)) (s : Store) (acc : LoopAcc) (e : String),
      e ∈ acc.errors → e ∈ (engineLoop ist iso l s acc).1.errors := by
  intro l
  induction l with
  | nil => intro s acc e he; exact he
  | cons x t ih =>
      intro s acc e he
      obtain ⟨id, ao⟩ := x
      rcases h : stepAutoOrder ist iso s id ao with ⟨out, s2⟩
      cases out <;> simp only [engineLoop, h] <;> apply ih <;>
        first
          | exact he
          | exact List.mem_append_left _ he

lemma engineLoop_failed_mono (ist : ISTParts) (iso : String) :
    ∀ (l : List (String × AutoOrder)) (s : Store) (acc : LoopAcc),
      acc.failed ≤ (engineLoop ist iso l s acc).1.failed := by
  intro l
  induction l with
  | nil => intro s acc; exact Nat.le_refl _
  | cons x t ih =>
      intro s acc
      obtain ⟨id, ao⟩ := x
      rcases h : stepAutoOrder ist iso s id ao with ⟨out, s2⟩
      cases out <;> simp only [engineLoop, h] <;>
        exact Nat.le_trans (by dsimp only; omega) (ih s2 _)

/-! ### Concrete fixtures -/

/-- Instant 2024-01-15T02:30:00Z, which is 08:00 IST on Monday 2024-01-15. -/
def t0 : Int := daysFromCivil 2024 1 15 * 86400000 + 9000000

/-- A daily recurring order: 2 units at unit price 50, firing at 08:00. -/
def ao1 : AutoOrder :=
  { userId := "u1", itemId := "it1", itemName := "Tea", itemPrice := 50,
    quantity := 2, frequency := "daily", customDays := none, time := "08:00",
    status := "active", lastExecutedDate := none, lastExecutedAt := none,
    lastFailedAt := none, lastFailureReason := none, updatedAt := none,
    totalExecutions := 0, totalFailures := 0 }

/-- The owning user with wallet balance 50 (less than the total of 100). -/
def userPoor : UserDoc :=
  { name := some "Asha", email := some "a@x.y", rollNumber := some "R1",
    walletBalance := some 50 }

/-- The owning user with wallet balance 200 (scenario A of the spec). -/
def userRich : UserDoc :=
  { name := some "Asha", email := some "a@x.y", rollNumber := some "R1",
    walletBalance := some 200 }

/-- The owning user whose document carries no walletBalance field. -/
def userNoWallet : UserDoc :=
  { name := some "Asha", email := some "a@x.y", rollNumber := some "R1",
    walletBalance := none }

/-- Base store contents shared by the fixtures. -/
def baseStore (u : UserDoc) : Store :=
  { autoOrders := [("ao1", ao1)], users := [("u1", u)], orders := [],
    walletTransactions := [], notifications := [], autoOrderExecutions := [],
    orderIdSupply := ["SAITM4F7X"], docIdSupply := ["wtx1"], txFaults := [],
    initFault := none, queryFault := none }

/-- Store with an eligible order and insufficient balance (scenario B). -/
def storeInsufficient : Store := baseStore userPoor

/-- Store with an eligible order and sufficient balance (scenario A). -/
def storeScenarioA : Store := baseStore userRich

/-- Store whose owning user has no walletBalance field. -/
def storeNoWallet : Store := baseStore userNoWallet

/-- Store with no recurring orders at all. -/
def storeEmpty : Store :=
  { autoOrders := [], users := [], orders := [], walletTransactions := [],
    notifications := [], autoOrderExecutions := [],
    orderIdSupply := [], docIdSupply := [], txFaults := [],
    initFault := none, queryFault := none }

/-- Store in which the storage backend is unreachable at the query. -/
def storeQueryFault : Store :=
  { baseStore userRich with queryFault := some "ECONNREFUSED" }

/-- A second eligible order, used to show iteration continues after a
faulty item. -/
def ao2 : AutoOrder :=
  { ao1 with itemId := "it2", itemName := "Coffee", itemPrice := 20, quantity := 1 }

/-- Store whose first candidate hits an unexpected SDK fault and whose
second candidate is processable. -/
def storeFaulty : Store :=
  { autoOrders := [("bad1", ao1), ("ao2", ao2)], users := [("u1", userRich)],
    orders := [], walletTransactions := [], notifications := [],
    autoOrderExecutions := [], orderIdSupply := ["SAITM4F7X"],
    docIdSupply := ["wtx1"], txFaults := [("bad1", "boom")],
    initFault := none, queryFault := none }

/-! ### Claim C1 -/

/-- C1 (code bug witness): on an eligible daily order with balance 50 and
total 100, the transaction body queues the failed ExecutionAttempt and the
lastExecutedDate update and then throws INSUFFICIENT_BALANCE, so Firestore
rolls the queued writes back: the run counts one failure with the
insufficient-balance error string, yet the store is completely unchanged —
no ExecutionAttempt is persisted, the duplicate-guard date is not advanced,
and the failure counter stays 0. -/
theorem insufficientBranchIsRolledBack :
    txAttempt storeInsufficient "ao1" ao1 (jsToISOString t0) "2024-01-15"
      = (insufficientTxWrites "ao1" ao1 (jsToISOString t0) "2024-01-15" 50 100,
         some "INSUFFICIENT_BALANCE") ∧
    (executeAutoOrders storeInsufficient t0 none).1.failed = 1 ∧
    (executeAutoOrders storeInsufficient t0 none).1.errors
      = ["ao1: insufficient balance"] ∧
    (executeAutoOrders storeInsufficient t0 none).2 = storeInsufficient := by
  refine ⟨by decide, by decide, by decide, by decide⟩

/-! ### Claim C2 -/

/-- C2 (code bug witness): after a first same-day pass over an eligible
order with insufficient balance, a second pass at the same instant
re-processes the order instead of skipping it, and after both passes zero
ExecutionAttempt records exist — because the date stamp queued by the
insufficient-balance branch was rolled back with the throw. -/
theorem secondPassReprocessesAfterInsufficient :
    ((executeAutoOrders (executeAutoOrders storeInsufficient t0 none).2 t0 none).1.processed
        = 1) ∧
    ((executeAutoOrders (executeAutoOrders storeInsufficient t0 none).2 t0 none).1.skipped
        = 0) ∧
    ((executeAutoOrders storeInsufficient t0 none).2.autoOrderExecutions = []) ∧
    ((executeAutoOrders (executeAutoOrders storeInsufficient t0 none).2 t0
        none).2.autoOrderExecutions = []) := by
  refine ⟨by decide, by decide, by decide, by decide⟩

/-! ### Claim C3 -/

lemma findDoc_map_update {α : Type} (l : List (String × α)) (k : String)
    (f : α → α) (v : α) (h : findDoc l k = some v) :
    findDoc (l.map (fun p => if p.1 = k then (p.1, f p.2) else p)) k = some (f v) := by
  induction l with
  | nil => simp [findDoc] at h
  | cons x t ih =>
      obtain ⟨k2, a⟩ := x
      simp only [List.map_cons]
      by_cases hk : k2 = k
      · subst hk
        have h2 : a = v := by
          unfold findDoc at h
          rw [if_pos rfl] at h
          exact Option.some.inj h
        rw [if_pos rfl]
        unfold findDoc
        rw [if_pos rfl, h2]
      · rw [if_neg hk]
        unfold findDoc
        rw [if_neg hk]
        unfold findDoc at h
        rw [if_neg hk] at h
        exact ih h

/-- The exact effects of the committed success-branch transaction of the
Order Materializer, for one eligible candidate: the outcome is success and
the new store differs from the old one by exactly the six writes of the
transaction. -/
def successStepEffects (s : Store) (id : String) (ao : AutoOrder) (u : UserDoc)
    (ist : ISTParts) (nowIso : String) : Prop :=
  let total := ao.itemPrice * ao.quantity
  let oid := s.orderIdSupply.headD "SAITM0000"
  let itemName := ao.itemName
  let quantity := ao.quantity
  let s2 := (stepAutoOrder ist nowIso s id ao).2
  (stepAutoOrder ist nowIso s id ao).1 = .txSuccess ∧
  s2.users = s.users.map (fun p =>
    if p.1 = ao.userId then
      (p.1, { p.2 with walletBalance := some (p.2.walletBalance.getD 0 - total) })
    else p) ∧
  findDoc s2.users ao.userId
    = some { u with walletBalance := some (u.walletBalance.getD 0 - total) } ∧
  s2.orders = s.orders ++
    [{ orderId := oid, userId := ao.userId,
       userName := jsOr u.name "Auto Order", userEmail := jsOr u.email "",
       userRollNumber := jsOr u.rollNumber "",
       items := [{ id := ao.itemId, name := ao.itemName,
                   price := ao.itemPrice, quantity := ao.quantity }],
       total := total, paymentMode := "Wallet", status := "pending",
       isAutoOrder := true, autoOrderId := id,
       createdAt := nowIso, updatedAt := nowIso }] ∧
  s2.walletTransactions = s.walletTransactions ++
    [{ userId := ao.userId, txnType := "debit", amount := total,
       description := s!"Auto Order #{oid} — {itemName} x{quantity}",
       transactionId := s.docIdSupply.headD "doc0", createdAt := nowIso }] ∧
  s2.notifications = s.notifications ++
    [{ userId := ao.userId, notifType := "auto_order",
       title := "Auto Order Placed ✅",
       message := s!"{itemName} x{quantity} (₹{total}) placed automatically.",
       orderId := oid, read := false, createdAt := nowIso }] ∧
  s2.autoOrderExecutions = s.autoOrderExecutions ++
    [{ autoOrderId := id, userId := ao.userId, success := true,
       orderId := some oid, failureReason := none,
       amountDeducted := some total, executedAt := nowIso }] ∧
  s2.autoOrders = s.autoOrders.map (fun p =>
    if p.1 = id then
      (p.1, { p.2 with
              lastExecutedDate := some ist.dateStr, lastExecutedAt := some nowIso,
              totalExecutions := p.2.totalExecutions + 1, updatedAt := some nowIso })
    else p)

/-- C3 (amended: the order is stored with payment mode "Wallet", the exact
literal the code writes): for every eligible candidate whose user exists
with balance at least the total, the committed transaction debits the
wallet by the total, creates the pending single-item order with a
back-reference to the recurring order, the wallet-ledger debit entry, the
notification, the successful ExecutionAttempt with amount and order id, and
advances the recurring order tracking fields with the success counter
incremented by 1. -/
theorem materializerSuccessBranchEffects
    (s : Store) (id : String) (ao : AutoOrder) (u : UserDoc)
    (ist : ISTParts) (nowIso : String)
    (hrun : shouldRunFor ao ist.day = true)
    (hdup : (ao.lastExecutedDate == some ist.dateStr) = false)
    (hfault : findDoc s.txFaults id = none)
    (huser : findDoc s.users ao.userId = some u)
    (hbal : ¬ (u.walletBalance.getD 0 < ao.itemPrice * ao.quantity)) :
    successStepEffects s id ao u ist nowIso := by
  unfold successStepEffects
  have hstep : stepAutoOrder ist nowIso s id ao
      = (.txSuccess,
         { applyWrites s (successTxWrites s id ao u nowIso ist.dateStr
             (ao.itemPrice * ao.quantity)) with
           orderIdSupply := s.orderIdSupply.tail,
           docIdSupply := s.docIdSupply.tail }) := by
    unfold stepAutoOrder runItemTx txAttempt
    rw [hrun, hdup, hfault, huser]
    simp only [Bool.not_true, if_neg hbal]
    rfl
  rw [hstep]
  refine ⟨rfl, rfl, ?_, rfl, rfl, rfl, rfl, rfl⟩
  exact findDoc_map_update s.users ao.userId
    (fun ud =>
      { ud with
        walletBalance := some (ud.walletBalance.getD 0 - ao.itemPrice * ao.quantity) })
    u huser

/-- C3 counterexample to the claim as written: the order created for
scenario A stores paymentMode "Wallet", not the lowercase literal "wallet"
stated by the claim. -/
theorem paymentModeLiteralCex :
    ((executeAutoOrders storeScenarioA t0 none).2.orders.map
        (fun o => o.paymentMode)) = ["Wallet"] ∧
    ¬ ("Wallet" = "wallet") := by
  refine ⟨by decide, by decide⟩

/-- C3 witness: scenario A — balance 200, quantity 2 at unit price 50 —
satisfies every hypothesis and realises all success-branch effects. -/
theorem materializerSuccessBranchEffectsWitness :
    shouldRunFor ao1 (getIST t0).day = true ∧
    (ao1.lastExecutedDate == some (getIST t0).dateStr) = false ∧
    findDoc storeScenarioA.txFaults "ao1" = none ∧
    findDoc storeScenarioA.users ao1.userId = some userRich ∧
    ¬ (userRich.walletBalance.getD 0 < ao1.itemPrice * ao1.quantity) ∧
    successStepEffects storeScenarioA "ao1" ao1 userRich (getIST t0)
      (jsToISOString t0) :=
  ⟨by decide, by decide, by decide, by decide, by decide,
   materializerSuccessBranchEffects storeScenarioA "ao1" ao1 userRich
     (getIST t0) (jsToISOString t0) (by decide) (by decide) (by decide)
     (by decide) (by decide)⟩

/-! ### Claim C4 -/

/-- C4: the Recurrence Evaluator fires exactly when the rule is daily, or
the rule is weekdays and the weekday is one of Mon..Fri, or the rule is
custom and the weekday belongs to the explicit day set; every other rule
value, and a custom rule without a day array, never fires (fail closed). -/
theorem recurrenceEvaluatorCharacterisation (ao : AutoOrder) (day : String) :
    shouldRunFor ao day = true ↔
      (ao.frequency = "daily" ∨
       (ao.frequency = "weekdays" ∧ day ∈ WEEKDAYS) ∨
       (ao.frequency = "custom" ∧ ∃ l, ao.customDays = some l ∧ day ∈ l)) := by
  unfold shouldRunFor
  by_cases h1 : ao.frequency = "daily"
  · simp [h1]
  · by_cases h2 : ao.frequency = "weekdays"
    · simp [h1, h2]
    · by_cases h3 : ao.frequency = "custom"
      · cases hc : ao.customDays with
        | none => simp [h1, h2, h3, hc]
        | some l => simp [h1, h2, h3, hc]
      · simp [h1, h2, h3]

/-! ### Claim C5 -/

/-- The zeroed loop accumulator the engine starts from. -/
def acc0 : LoopAcc :=
  { processed := 0, succeeded := 0, failed := 0, skipped := 0, errors := [] }

lemma executeAutoOrders_run (s : Store) (now : Int) (ot : Option String)
    (docs : List (String × AutoOrder))
    (hinit : s.initFault = none) (hquery : s.queryFault = none)
    (hfilter : s.autoOrders.filter
        (fun p => p.2.status == "active" && p.2.time == ot.getD (getIST now).time)
        = docs)
    (hne : docs ≠ []) :
    executeAutoOrders s now ot
      = ({ success := true, time := ot.getD (getIST now).time,
           day := (getIST now).day, date := (getIST now).dateStr,
           candidates := docs.length,
           skipped := (engineLoop (getIST now) (jsToISOString now) docs s acc0).1.skipped,
           processed := (engineLoop (getIST now) (jsToISOString now) docs s acc0).1.processed,
           succeeded := (engineLoop (getIST now) (jsToISOString now) docs s acc0).1.succeeded,
           failed := (engineLoop (getIST now) (jsToISOString now) docs s acc0).1.failed,
           errors := (engineLoop (getIST now) (jsToISOString now) docs s acc0).1.errors,
           message := none },
         (engineLoop (getIST now) (jsToISOString now) docs s acc0).2) := by
  unfold executeAutoOrders
  simp only [hinit, hquery, hfilter]
  cases docs with
  | nil => exact absurd rfl hne
  | cons x t => simp [List.isEmpty, acc0]

/-- C5: an unexpected exception while processing one candidate is caught at
the per-item boundary: the run still returns a value with success true, the
error list contains the item id with the message, the item counts as
failed, and every candidate of the batch is still classified (skipped plus
processed equals candidates, succeeded plus failed equals processed). -/
theorem batchIsolatesUnexpectedItemErrors
    (s : Store) (now : Int) (ot : Option String)
    (pre post : List (String × AutoOrder)) (badId m : String) (badAo : AutoOrder)
    (hinit : s.initFault = none) (hquery : s.queryFault = none)
    (hfilter : s.autoOrders.filter
        (fun p => p.2.status == "active" && p.2.time == ot.getD (getIST now).time)
        = pre ++ (badId, badAo) :: post)
    (hrun : shouldRunFor badAo (getIST now).day = true)
    (hdup : (badAo.lastExecutedDate == some (getIST now).dateStr) = false)
    (hfault : findDoc s.txFaults badId = some m)
    (hm1 : (m == "INSUFFICIENT_BALANCE") = false)
    (hm2 : (m == "USER_NOT_FOUND") = false) :
    (executeAutoOrders s now ot).1.success = true ∧
    s!"{badId}: {m}" ∈ (executeAutoOrders s now ot).1.errors ∧
    1 ≤ (executeAutoOrders s now ot).1.failed ∧
    (executeAutoOrders s now ot).1.skipped + (executeAutoOrders s now ot).1.processed
      = (executeAutoOrders s now ot).1.candidates ∧
    (executeAutoOrders s now ot).1.succeeded + (executeAutoOrders s now ot).1.failed
      = (executeAutoOrders s now ot).1.processed := by
  rw [executeAutoOrders_run s now ot (pre ++ (badId, badAo) :: post)
    hinit hquery hfilter (by simp)]
  dsimp only
  have hmsg : errorStringFor badId m = s!"{badId}: {m}" := by
    unfold errorStringFor
    rw [hm1, hm2]
    simp
  have hsplit := engineLoop_append (getIST now) (jsToISOString now)
    pre ((badId, badAo) :: post) s acc0
  have hfaults : (engineLoop (getIST now) (jsToISOString now) pre s acc0).2.txFaults
      = s.txFaults := engineLoop_txFaults (getIST now) (jsToISOString now) pre s acc0
  have hstep : stepAutoOrder (getIST now) (jsToISOString now)
      (engineLoop (getIST now) (jsToISOString now) pre s acc0).2 badId badAo
      = (.txThrown m, (engineLoop (getIST now) (jsToISOString now) pre s acc0).2) := by
    unfold stepAutoOrder runItemTx
    rw [hrun, hdup, hfaults, hfault]
    simp
  have hbadstep : engineLoop (getIST now) (jsToISOString now)
      ((badId, badAo) :: post)
      (engineLoop (getIST now) (jsToISOString now) pre s acc0).2
      (engineLoop (getIST now) (jsToISOString now) pre s acc0).1
      = engineLoop (getIST now) (jsToISOString now) post
          (engineLoop (getIST now) (jsToISOString now) pre s acc0).2
          { (engineLoop (getIST now) (jsToISOString now) pre s acc0).1 with
            processed := (engineLoop (getIST now) (jsToISOString now) pre s acc0).1.processed + 1,
            failed := (engineLoop (getIST now) (jsToISOString now) pre s acc0).1.failed + 1,
            errors := (engineLoop (getIST now) (jsToISOString now) pre s acc0).1.errors
              ++ [errorStringFor badId m] } := by
    conv_lhs => rw [engineLoop, hstep]
  have hcounts := engineLoop_counts (getIST now) (jsToISOString now)
    (pre ++ (badId, badAo) :: post) s acc0
  refine ⟨rfl, ?_, ?_, ?_, ?_⟩
  · rw [hsplit, hbadstep, ← hmsg]
    exact engineLoop_errors_mono (getIST now) (jsToISOString now) post _ _ _
      (List.mem_append_right _ (by simp))
  · rw [hsplit, hbadstep]
    refine Nat.le_trans ?_
      (engineLoop_failed_mono (getIST now) (jsToISOString now) post _ _)
    dsimp only
    omega
  · have h1 := hcounts.1
    rw [show acc0.skipped = 0 from rfl, show acc0.processed = 0 from rfl] at h1
    omega
  · have h2 := hcounts.2
    rw [show acc0.succeeded = 0 from rfl, show acc0.failed = 0 from rfl,
      show acc0.processed = 0 from rfl] at h2
    omega

/-- C5 witness: a store whose first candidate hits an unexpected SDK fault
"boom" and whose second candidate is processable satisfies the hypotheses,
so the run records "bad1: boom", counts it failed, and classifies both
candidates. -/
theorem batchIsolatesUnexpectedItemErrorsWitness :
    storeFaulty.initFault = none ∧ storeFaulty.queryFault = none ∧
    storeFaulty.autoOrders.filter
        (fun p => p.2.status == "active" &&
          p.2.time == (none : Option String).getD (getIST t0).time)
        = [] ++ ("bad1", ao1) :: [("ao2", ao2)] ∧
    shouldRunFor ao1 (getIST t0).day = true ∧
    (ao1.lastExecutedDate == some (getIST t0).dateStr) = false ∧
    findDoc storeFaulty.txFaults "bad1" = some "boom" ∧
    (("boom" : String) == "INSUFFICIENT_BALANCE") = false ∧
    (("boom" : String) == "USER_NOT_FOUND") = false ∧
    ((executeAutoOrders storeFaulty t0 none).1.success = true ∧
     "bad1: boom" ∈ (executeAutoOrders storeFaulty t0 none).1.errors ∧
     1 ≤ (executeAutoOrders storeFaulty t0 none).1.failed ∧
     (executeAutoOrders storeFaulty t0 none).1.skipped
         + (executeAutoOrders storeFaulty t0 none).1.processed
       = (executeAutoOrders storeFaulty t0 none).1.candidates ∧
     (executeAutoOrders storeFaulty t0 none).1.succeeded
         + (executeAutoOrders storeFaulty t0 none).1.failed
       = (executeAutoOrders storeFaulty t0 none).1.processed) :=
  ⟨rfl, rfl, by decide, by decide, by decide, by decide, by decide, by decide,
   batchIsolatesUnexpectedItemErrors storeFaulty t0 none [] [("ao2", ao2)]
     "bad1" "boom" ao1 rfl rfl (by decide) (by decide) (by decide) (by decide)
     (by decide) (by decide)⟩

/-! ### Claim C6 -/

/-- Environment with no configured secret, flagged as production. -/
def envNoSecret : CronEnv := { cronSecret := none, nodeEnvProduction := true }

/-- Environment with the secret "tok123" configured, flagged as production. -/
def envWithSecret : CronEnv := { cronSecret := some "tok123", nodeEnvProduction := true }

/-- A request carrying no credentials at all. -/
def reqBare : CronRequest := { authorizationHeader := none, secretParam := none }

/-- C6 counterexample to the claim as written: with no secret configured
and the environment explicitly flagged as production, an uncredentialled
request is still accepted (the endpoint fails open in production too; the
code never consults the production flag). -/
theorem cronAuthFailsOpenInProductionCex :
    verifyCronAuth envNoSecret reqBare = true ∧
    (cronGET envNoSecret reqBare t0 storeEmpty).1.status = 200 :=
  ⟨by decide, by decide⟩

/-- C6 (amended: when no secret is configured the endpoint fails open
unconditionally, in production as well): with a configured secret, a
request matching neither the bearer header nor the secret query parameter
is rejected with 401 before any batch logic runs and with the store
untouched, so it is never counted in any run summary; with no configured
secret every request passes the gate. -/
theorem cronAuthGate :
    (∀ (env : CronEnv) (req : CronRequest) (now : Int) (s : Store) (sec : String),
        env.cronSecret = some sec →
        (req.authorizationHeader == some ("Bearer " ++ sec)) = false →
        (req.secretParam == some sec) = false →
        cronGET env req now s
          = ({ status := 401, body := [("error", .jstr "Unauthorized")] }, s)) ∧
    (∀ (env : CronEnv) (req : CronRequest),
        env.cronSecret = none → verifyCronAuth env req = true) := by
  constructor
  · intro env req now s sec hsec h1 h2
    have hv : verifyCronAuth env req = false := by
      unfold verifyCronAuth
      rw [hsec]
      simp only [h1, h2]
      simp
    unfold cronGET
    rw [hv]
    simp
  · intro env req hnone
    unfold verifyCronAuth
    rw [hnone]

/-- C6 witness: the secret "tok123" is configured and the bare request
matches neither credential, so it is rejected with 401 and the store is
unchanged; and with no secret configured the bare request passes. -/
theorem cronAuthGateWitness :
    envWithSecret.cronSecret = some "tok123" ∧
    (reqBare.authorizationHeader == some ("Bearer " ++ "tok123")) = false ∧
    (reqBare.secretParam == some "tok123") = false ∧
    cronGET envWithSecret reqBare t0 storeScenarioA
      = ({ status := 401, body := [("error", .jstr "Unauthorized")] },
         storeScenarioA) ∧
    verifyCronAuth envNoSecret reqBare = true :=
  ⟨rfl, by decide, by decide,
   cronAuthGate.1 envWithSecret reqBare t0 storeScenarioA "tok123" rfl
     (by decide) (by decide),
   cronAuthGate.2 envNoSecret reqBare rfl⟩

/-! ### Claim C7 -/

/-- C7: when the storage backend is unreachable at the candidate query, the
whole run aborts as a batch-level failure: the engine reports success false
with the message, zero candidates and zero per-item results, the store is
untouched, and the HTTP trigger answers status 500. -/
theorem batchFatalStorageFailure
    (s : Store) (now : Int) (ot : Option String) (m : String)
    (env : CronEnv) (req : CronRequest)
    (hinit : s.initFault = none) (hq : s.queryFault = some m)
    (hauth : verifyCronAuth env req = true) :
    (executeAutoOrders s now ot).1
      = { success := false, time := ot.getD (getIST now).time,
          day := (getIST now).day, date := (getIST now).dateStr,
          candidates := 0, skipped := 0, processed := 0, succeeded := 0,
          failed := 0, errors := [m], message := some m } ∧
    (executeAutoOrders s now ot).2 = s ∧
    cronGET env req now s = ({ status := 500, body := [("error", .jstr m)] }, s) := by
  refine ⟨?_, ?_, ?_⟩
  · unfold executeAutoOrders
    simp only [hinit, hq]
  · unfold executeAutoOrders
    simp only [hinit, hq]
  · unfold cronGET
    rw [hauth]
    simp only [hq]
    simp

/-- C7 witness: the fixture whose queryFault is "ECONNREFUSED" satisfies
the hypotheses, with an authorised request. -/
theorem batchFatalStorageFailureWitness :
    storeQueryFault.initFault = none ∧
    storeQueryFault.queryFault = some "ECONNREFUSED" ∧
    verifyCronAuth envNoSecret reqBare = true ∧
    ((executeAutoOrders storeQueryFault t0 none).1
        = { success := false, time := (none : Option String).getD (getIST t0).time,
            day := (getIST t0).day, date := (getIST t0).dateStr,
            candidates := 0, skipped := 0, processed := 0, succeeded := 0,
            failed := 0, errors := ["ECONNREFUSED"],
            message := some "ECONNREFUSED" } ∧
     (executeAutoOrders storeQueryFault t0 none).2 = storeQueryFault ∧
     cronGET envNoSecret reqBare t0 storeQueryFault
       = ({ status := 500, body := [("error", .jstr "ECONNREFUSED")] },
          storeQueryFault)) :=
  ⟨rfl, rfl, rfl,
   batchFatalStorageFailure storeQueryFault t0 none "ECONNREFUSED"
     envNoSecret reqBare rfl rfl rfl⟩

/-! ### Claim C8 -/

/-- C8 counterexample to the claim as written: a non-fatal run with zero
candidates answers 200 with body keys success, processed and message only —
the response does not contain the errors field (nor time, day, date,
candidates, skipped, succeeded or failed). -/
theorem cronResponseMissingFieldsCex :
    (cronGET envNoSecret reqBare t0 storeEmpty).1.status = 200 ∧
    ((cronGET envNoSecret reqBare t0 storeEmpty).1.body.map Prod.fst)
      = ["success", "processed", "message"] ∧
    (((cronGET envNoSecret reqBare t0 storeEmpty).1.body.map Prod.fst).contains
        "errors") = false ∧
    (((cronGET envNoSecret reqBare t0 storeEmpty).1.body.map Prod.fst).contains
        "day") = false :=
  ⟨by decide, by decide, by decide, by decide⟩

/-- C8 (amended: the non-fatal response never carries an errors array; runs
with at least one candidate answer 200 with exactly the keys success, time,
day, date, candidates, skipped, processed, succeeded, failed; zero-candidate
runs answer 200 with only success, processed and message; 500 is reserved
for a batch-level fatal error). -/
theorem cronResponseShape
    (env : CronEnv) (req : CronRequest) (now : Int) (s : Store)
    (hauth : verifyCronAuth env req = true) :
    (∀ m, s.queryFault = some m →
        cronGET env req now s
          = ({ status := 500, body := [("error", JVal.jstr m)] }, s)) ∧
    (s.queryFault = none →
      s.autoOrders.filter
          (fun p => p.2.status == "active" && p.2.time == (getIST now).time) = [] →
        (cronGET env req now s).1.status = 200 ∧
        (cronGET env req now s).1.body.map Prod.fst
          = ["success", "processed", "message"]) ∧
    (s.queryFault = none →
      ∀ d ds, s.autoOrders.filter
          (fun p => p.2.status == "active" && p.2.time == (getIST now).time)
          = d :: ds →
        (cronGET env req now s).1.status = 200 ∧
        (cronGET env req now s).1.body.map Prod.fst
          = ["success", "time", "day", "date", "candidates", "skipped",
             "processed", "succeeded", "failed"]) := by
  refine ⟨?_, ?_, ?_⟩
  · intro m hq
    unfold cronGET
    rw [hauth]
    simp only [hq]
    simp
  · intro hq hfilter
    unfold cronGET
    rw [hauth]
    simp only [hq, hfilter]
    simp
  · intro hq d ds hfilter
    unfold cronGET
    rw [hauth]
    simp only [hq, hfilter]
    simp [List.isEmpty]

/-- C8 witness: an authorised request against the scenario A store (one
candidate) answers 200 with exactly the nine counter keys and no errors
key. -/
theorem cronResponseShapeWitness :
    verifyCronAuth envNoSecret reqBare = true ∧
    storeScenarioA.queryFault = none ∧
    storeScenarioA.autoOrders.filter
        (fun p => p.2.status == "active" && p.2.time == (getIST t0).time)
      = ("ao1", ao1) :: [] ∧
    ((cronGET envNoSecret reqBare t0 storeScenarioA).1.status = 200 ∧
     (cronGET envNoSecret reqBare t0 storeScenarioA).1.body.map Prod.fst
       = ["success", "time", "day", "date", "candidates", "skipped",
          "processed", "succeeded", "failed"]) :=
  ⟨rfl, rfl, by decide,
   (cronResponseShape envNoSecret reqBare t0 storeScenarioA rfl).2.2 rfl
     ("ao1", ao1) [] (by decide)⟩

/-! ### Claim C10 -/

/-- C10: when the owning user document exists but carries no walletBalance
field, the Materializer computes with balance exactly 0, so any positive
total deterministically takes the insufficient-balance classification — the
body queues the failed attempt with reason "₹0 < ₹total" and throws
INSUFFICIENT_BALANCE; no type or missing-field error arises. -/
theorem missingWalletFieldTreatedAsZero
    (s : Store) (id : String) (ao : AutoOrder) (u : UserDoc)
    (ist : ISTParts) (nowIso : String)
    (hrun : shouldRunFor ao ist.day = true)
    (hdup : (ao.lastExecutedDate == some ist.dateStr) = false)
    (hfault : findDoc s.txFaults id = none)
    (huser : findDoc s.users ao.userId = some u)
    (hnone : u.walletBalance = none)
    (hpos : 0 < ao.itemPrice * ao.quantity) :
    stepAutoOrder ist nowIso s id ao = (.txThrown "INSUFFICIENT_BALANCE", s) ∧
    txAttempt s id ao nowIso ist.dateStr
      = (insufficientTxWrites id ao nowIso ist.dateStr 0
           (ao.itemPrice * ao.quantity),
         some "INSUFFICIENT_BALANCE") := by
  have hbal : u.walletBalance.getD 0 = 0 := by rw [hnone]; rfl
  have htx : txAttempt s id ao nowIso ist.dateStr
      = (insufficientTxWrites id ao nowIso ist.dateStr 0
           (ao.itemPrice * ao.quantity),
         some "INSUFFICIENT_BALANCE") := by
    unfold txAttempt
    rw [huser]
    simp only [hbal, if_pos hpos]
  constructor
  · unfold stepAutoOrder runItemTx
    rw [hrun, hdup, hfault, htx]
    simp
  · exact htx

/-- C10 witness: the fixture whose user has no walletBalance field, with
total 100, is classified insufficient with reason embedding a balance of
exactly 0, and the store is untouched. -/
theorem missingWalletFieldTreatedAsZeroWitness :
    shouldRunFor ao1 (getIST t0).day = true ∧
    (ao1.lastExecutedDate == some (getIST t0).dateStr) = false ∧
    findDoc storeNoWallet.txFaults "ao1" = none ∧
    findDoc storeNoWallet.users ao1.userId = some userNoWallet ∧
    userNoWallet.walletBalance = none ∧
    0 < ao1.itemPrice * ao1.quantity ∧
    (stepAutoOrder (getIST t0) (jsToISOString t0) storeNoWallet "ao1" ao1
        = (.txThrown "INSUFFICIENT_BALANCE", storeNoWallet) ∧
     txAttempt storeNoWallet "ao1" ao1 (jsToISOString t0) (getIST t0).dateStr
        = (insufficientTxWrites "ao1" ao1 (jsToISOString t0) (getIST t0).dateStr 0
             (ao1.itemPrice * ao1.quantity),
           some "INSUFFICIENT_BALANCE")) :=
  ⟨by decide, by decide, by decide, by decide, rfl, by decide,
   missingWalletFieldTreatedAsZero storeNoWallet "ao1" ao1 userNoWallet
     (getIST t0) (jsToISOString t0) (by decide) (by decide) (by decide)
     (by decide) rfl (by decide)⟩

end ApnaHub
